import Mathlib

/-!
Verification development for a browser-based table digitizer.

The application (a React component `App`) keeps five pieces of state
(`capturedImage`, `isProcessing`, `extractedData`, `error`, `showCamera`)
plus a camera-stream reference (`streamRef`), and exposes action handlers
(`startCamera`, `stopCamera`, `capturePhoto`, `handleFileUpload`,
`processImage`, `downloadCSV`, `addToDatabase`, `resetApp`).

Embedding conventions:
* React state and the stream ref become the record `AppState`; a `World`
  record adds ghost instrumentation (a fresh-id counter, the list of
  acquired stream ids, and the multiset of track-stop events) used to state
  the resource-lifetime property of the camera stream.
* Asynchronous outcomes (camera permission, fetch results, the body of an
  HTTP response, the FileReader result, the Gemini call) are environment
  parameters of the corresponding action.
* The `video` preview element is rendered only inside the `showCamera`
  block of the JSX, so `videoRef.current` is non-null exactly when
  `showCamera` is true; the off-screen `canvas` is rendered
  unconditionally, so `canvasRef.current` is always non-null, and
  `getContext` is modelled as succeeding.
-/

/-- The `TableData` interface: `{ headers: string[]; rows: string[][] }`. -/
structure TableData where
  headers : List String
  rows : List (List String)
deriving DecidableEq

/-- The CSV string built by `downloadCSV`:
`[headers.join(','), ...rows.map(row => row.join(','))].join('\n')`. -/
def downloadCSVContent (t : TableData) : String :=
  String.intercalate "\n"
    (String.intercalate "," t.headers :: t.rows.map (fun row => String.intercalate "," row))

/-- Restatement of the spec's words for CSV export: join the headers with
commas and each row with commas, and join the resulting lines with
newlines.  Used only to compare with `downloadCSVContent`. -/
def csvContentAsSpecified (t : TableData) : String :=
  String.intercalate "\n" ((t.headers :: t.rows).map (fun line => String.intercalate "," line))

/-- The React state of `App` together with the `streamRef` ref.  A camera
stream is identified by the `Nat` id assigned at acquisition time. -/
structure AppState where
  capturedImage : Option String
  isProcessing : Bool
  extractedData : Option TableData
  error : Option String
  showCamera : Bool
  streamRef : Option Nat
deriving DecidableEq

/-- App state plus ghost instrumentation: `nextStreamId` is the fresh id
for the next acquisition, `acquired` lists every stream id ever handed out
by `getUserMedia`, and `stopEvents` records one entry per
`track.stop()`-on-all-tracks call made on a stream. -/
structure World where
  app : AppState
  nextStreamId : Nat
  acquired : List Nat
  stopEvents : List Nat
deriving DecidableEq

/-- The initial state: all `useState` initializers are `null`/`false`. -/
def initWorld : World :=
  ⟨⟨none, false, none, none, false, none⟩, 0, [], []⟩

/-- Outcome of the `getUserMedia` request in `startCamera`. -/
inductive CameraOutcome
  | granted
  | denied
deriving DecidableEq

/-- The error message set by `startCamera` when camera access fails. -/
def cameraErrMsg : String := "Unable to access camera. Please check permissions."

/-- `startCamera`: on success stores the fresh stream in `streamRef`
unconditionally, then runs `setShowCamera(true)` only under the
`if (videoRef.current)` guard - and the video element is mounted exactly
when `showCamera` is already true, since the JSX renders it only inside
the `showCamera` block; on failure sets the error message and changes
nothing else. -/
def startCamera (o : CameraOutcome) (w : World) : World :=
  match o with
  | .granted =>
      let s := w.nextStreamId
      let w1 :=
        { w with
            app := { w.app with streamRef := some s },
            nextStreamId := s + 1,
            acquired := w.acquired ++ [s] }
      if w.app.showCamera then { w1 with app := { w1.app with showCamera := true } } else w1
  | .denied =>
      { w with app := { w.app with error := some cameraErrMsg } }

/-- `stopCamera`: if a stream is held, stop all of its tracks and null the
ref; then hide the camera view unconditionally. -/
def stopCamera (w : World) : World :=
  match w.app.streamRef with
  | some s =>
      { w with
          app := { w.app with streamRef := none, showCamera := false },
          stopEvents := s :: w.stopEvents }
  | none =>
      { w with app := { w.app with showCamera := false } }

/-- `capturePhoto`: under the `videoRef.current && canvasRef.current`
guard (the canvas is always mounted, the video exactly when `showCamera`
is true, and `getContext` is modelled as succeeding), draw the frame,
store the canvas data URL as the captured image, then `stopCamera()`;
otherwise a no-op.  The data URL produced by `canvas.toDataURL` is the
environment parameter `img`. -/
def capturePhoto (img : String) (w : World) : World :=
  if w.app.showCamera then
    stopCamera { w with app := { w.app with capturedImage := some img } }
  else w

/-- A file chosen in the upload input: its MIME type and the data URL the
`FileReader` decodes it to. -/
structure UploadFile where
  mimeType : String
  dataUrl : String
deriving DecidableEq

/-- Strip a literal from the front of the input, if it is a prefix. -/
def stripPre : List Char → List Char → Option (List Char)
  | [], cs => some cs
  | _ :: _, [] => none
  | p :: ps, c :: cs => if p = c then stripPre ps cs else none

/-- JavaScript `String.prototype.startsWith`, character by character. -/
def startsWithJs (s pre : String) : Bool :=
  (stripPre pre.data s.data).isSome

/-- The whitespace set of JavaScript `String.prototype.trim`: space, tab,
the line terminators, vertical tab, form feed, no-break space and BOM. -/
def isJsWhitespace (c : Char) : Bool :=
  c == ' ' || c == '\t' || c == '\n' || c == '\r' || c == '\x0b' || c == '\x0c' ||
    c == '\u00a0' || c == '\ufeff' || c == '\u2028' || c == '\u2029'

/-- JavaScript `String.prototype.trim`: drop whitespace from both ends. -/
def trimJs (s : String) : String :=
  String.mk (((s.data.dropWhile isJsWhitespace).reverse.dropWhile isJsWhitespace).reverse)

/-- `handleFileUpload`: if a file is present and its type starts with
`image/`, read it as a data URL and store it as the captured image;
otherwise do nothing. -/
def handleFileUpload (f? : Option UploadFile) (w : World) : World :=
  match f? with
  | some f =>
      if startsWithJs f.mimeType "image/" then
        { w with app := { w.app with capturedImage := some f.dataUrl } }
      else w
  | none => w

/-- Outcome of `response.json()` on a resolved extraction response:
either the body parsed, with `tableData?` the value of the `tableData`
field (`none` models the field being absent, i.e. `undefined`), or reading
the body threw (not valid JSON - also covers a throwing field access),
which lands in the `catch` block. -/
inductive BodyOutcome
  | parsed (tableData? : Option TableData)
  | parseError
deriving DecidableEq

/-- Outcome of the `fetch('/api/process-table', ...)` call: a resolved
response with its `ok` flag and body, or a rejected promise (network
failure). -/
inductive FetchOutcome
  | resp (ok : Bool) (body : BodyOutcome)
  | reject
deriving DecidableEq

/-- The generic error message of the extraction `catch` block. -/
def processImageFailMsg : String := "Failed to process image. Please try again."

/-- `processImage`: returns immediately when no image is captured;
otherwise sets `isProcessing`, clears the error, performs the fetch, and on
`!response.ok` / rejection / body-read failure sets the generic error,
while on a parsed body stores `result.tableData` (possibly `undefined`,
i.e. `none`); `finally` clears `isProcessing`. -/
def processImage (o : FetchOutcome) (w : World) : World :=
  match w.app.capturedImage with
  | none => w
  | some _ =>
      let a := { w.app with isProcessing := true, error := none }
      let a2 :=
        match o with
        | .reject => { a with error := some processImageFailMsg }
        | .resp ok body =>
            if ok then
              match body with
              | .parseError => { a with error := some processImageFailMsg }
              | .parsed td? => { a with extractedData := td? }
            else { a with error := some processImageFailMsg }
      { w with app := { a2 with isProcessing := false } }

/-- The error message of the `addToDatabase` catch block. -/
def saveFailMsg : String := "Failed to save to database. Please try again."

/-- `addToDatabase`: no-op without extracted data; on a 2xx response an
alert is shown (no state change); otherwise the save error is set. -/
def addToDatabase (ok : Bool) (w : World) : World :=
  match w.app.extractedData with
  | none => w
  | some _ => if ok then w else { w with app := { w.app with error := some saveFailMsg } }

/-- `resetApp`: clear the captured image, the extracted data and the error,
then `stopCamera()`. -/
def resetApp (w : World) : World :=
  stopCamera
    { w with app := { w.app with capturedImage := none, extractedData := none, error := none } }

/-- The user-triggerable actions, each carrying the outcome its handler
observes from the environment. -/
inductive Act
  | start (o : CameraOutcome)
  | cancel
  | capture (img : String)
  | upload (f? : Option UploadFile)
  | process (o : FetchOutcome)
  | reset
  | download
  | save (ok : Bool)
deriving DecidableEq

/-- One UI step.  Each handler fires only when its control is rendered,
per the JSX conditions of `App`: Take Photo and the upload input render
when `!capturedImage && !showCamera`; Capture and Cancel render inside the
`showCamera` block; Extract and Start Over render inside the
`capturedImage` block; Download CSV and Add to Database render inside the
`extractedData` block. -/
def stepW (a : Act) (w : World) : World :=
  match a with
  | .start o =>
      if w.app.capturedImage = none ∧ w.app.showCamera = false then startCamera o w else w
  | .cancel => if w.app.showCamera = true then stopCamera w else w
  | .capture img => if w.app.showCamera = true then capturePhoto img w else w
  | .upload f? =>
      if w.app.capturedImage = none ∧ w.app.showCamera = false then handleFileUpload f? w else w
  | .process o => if w.app.capturedImage ≠ none then processImage o w else w
  | .reset => if w.app.capturedImage ≠ none then resetApp w else w
  | .download => w
  | .save ok => if w.app.extractedData ≠ none then addToDatabase ok w else w

/-- Run a sequence of UI steps from a state. -/
def run (acts : List Act) (w : World) : World :=
  acts.foldl (fun w a => stepW a w) w

/-- Number of occurrences of a stream id in an event list. -/
def countOcc (s : Nat) : List Nat → Nat
  | [] => 0
  | x :: xs => (if x = s then 1 else 0) + countOcc s xs

/-- The literal `GEMINI_API_KEY=` of the key-extraction regex. -/
def keyTag : List Char := "GEMINI_API_KEY=".data

/-- Characters matched by `.` in a JavaScript regex without the `s` flag:
everything except the four line terminators. -/
def isDotChar (c : Char) : Bool :=
  !(c == '\n' || c == '\r' || c == '\u2028' || c == '\u2029')

/-- Attempt of `/GEMINI_API_KEY=(.+)/` at the current position: the literal
must be a prefix, and the greedy `(.+)` captures the maximal nonempty run
of non-line-terminator characters after it. -/
def keyMatchAt (cs : List Char) : Option (List Char) :=
  match stripPre keyTag cs with
  | none => none
  | some rest =>
      let g := rest.takeWhile isDotChar
      if g = [] then none else some g

/-- `content.match(/GEMINI_API_KEY=(.+)/)`: the capture of the leftmost
match, attempting the pattern at each position from the left. -/
def findKeyMatch : List Char → Option (List Char)
  | [] => none
  | c :: cs =>
      match keyMatchAt (c :: cs) with
      | some g => some g
      | none => findKeyMatch cs

/-- The request `processTableImage` sends to the generative-AI endpoint:
the key parsed from the key file and the inlined image and prompt. -/
structure GeminiCall where
  apiKey : String
  imageBase64 : String
  prompt : String
deriving DecidableEq

/-- Outcome of the Gemini call, when it is made: non-ok HTTP status;
a result JSON whose `candidates[0].content.parts[0].text` access throws;
or the extracted text together with the outcome of `JSON.parse` on it
(`none` models a parse failure).  `JSON.parse` is abstracted as an
environment oracle paired with the text. -/
inductive GeminiOutcome
  | httpFail
  | malformedResult
  | text (content : String) (parsed : Option TableData)
deriving DecidableEq

/-- The `{ tableData }` object returned by `processTableImage`. -/
structure ExtractionResult where
  tableData : TableData
deriving DecidableEq

/-- `processTableImage`: read the `.api_key` file, match
`/GEMINI_API_KEY=(.+)/` and throw if there is no match; otherwise trim the
capture, call the Gemini endpoint, and on success return the parsed model
output wrapped as `{ tableData }`.  Every failure is rethrown by the
`catch` block, so failures are `Except.error`.  The first component
records the endpoint call, `none` when no call was made. -/
def processTableImage (imageBase64 prompt : String) (keyFileContent : String)
    (o : GeminiOutcome) : Option GeminiCall × Except String ExtractionResult :=
  match findKeyMatch keyFileContent.data with
  | none => (none, Except.error "Gemini API key not found in .api_key file")
  | some g =>
      let call : GeminiCall := ⟨trimJs (String.mk g), imageBase64, prompt⟩
      match o with
      | .httpFail => (some call, Except.error "Failed to process image with Gemini API")
      | .malformedResult => (some call, Except.error "TypeError: cannot read undefined")
      | .text _content parsed =>
          match parsed with
          | none => (some call, Except.error "SyntaxError: JSON parse failure")
          | some td => (some call, Except.ok ⟨td⟩)

/-- Claim C1: for the table `{headers:["A","B"], rows:[["1","2"],["3","4"]]}`
the CSV export produces exactly `"A,B\n1,2\n3,4"`; in general the export
joins the headers with commas and each row with commas and joins the lines
with newlines; embedded commas and newlines are not quoted or escaped. -/
theorem downloadCSV_spec :
    downloadCSVContent ⟨["A", "B"], [["1", "2"], ["3", "4"]]⟩ = "A,B\n1,2\n3,4" ∧
    (∀ t : TableData, downloadCSVContent t = csvContentAsSpecified t) ∧
    downloadCSVContent ⟨["A,B"], [["x\ny"]]⟩ = "A,B\nx\ny" := by
  refine ⟨by decide, fun t => rfl, by decide⟩

/-- Claim C10: `stopCamera` leaves the stream ref null and the camera view
hidden, and a second invocation changes nothing and stops no tracks. -/
theorem stopCamera_idem_spec (w : World) :
    (stopCamera w).app.streamRef = none ∧
    (stopCamera w).app.showCamera = false ∧
    stopCamera (stopCamera w) = stopCamera w ∧
    (stopCamera (stopCamera w)).stopEvents = (stopCamera w).stopEvents := by
  obtain ⟨⟨ci, ip, ed, er, sc, sr⟩, nx, acq, ev⟩ := w
  cases sr <;> simp [stopCamera]

/-- Claim C5: `resetApp` unconditionally clears the captured image, the
extracted data and the error, nulls the stream ref, hides the camera view,
and stops the tracks of the held stream (exactly one stop event when a
stream was active, none otherwise). -/
theorem resetApp_spec (w : World) :
    (resetApp w).app.capturedImage = none ∧
    (resetApp w).app.extractedData = none ∧
    (resetApp w).app.error = none ∧
    (resetApp w).app.streamRef = none ∧
    (resetApp w).app.showCamera = false ∧
    (resetApp w).stopEvents =
      (match w.app.streamRef with
       | some s => s :: w.stopEvents
       | none => w.stopEvents) := by
  obtain ⟨⟨ci, ip, ed, er, sc, sr⟩, nx, acq, ev⟩ := w
  cases sr <;> simp [resetApp, stopCamera]

/-- Claim C6: when the camera request is denied, `startCamera` sets a
non-empty user-facing error and leaves everything else unchanged; in
particular a hidden camera view stays hidden and the captured image, the
extracted data, and the stream reference keep their prior values. -/
theorem startCamera_denied_spec (w : World) :
    (startCamera CameraOutcome.denied w).app = { w.app with error := some cameraErrMsg } ∧
    cameraErrMsg ≠ "" ∧
    (startCamera CameraOutcome.denied w).app.capturedImage = w.app.capturedImage ∧
    (startCamera CameraOutcome.denied w).app.extractedData = w.app.extractedData ∧
    (startCamera CameraOutcome.denied w).app.streamRef = w.app.streamRef ∧
    (startCamera CameraOutcome.denied w).acquired = w.acquired ∧
    (startCamera CameraOutcome.denied w).stopEvents = w.stopEvents ∧
    (w.app.showCamera = false → (startCamera CameraOutcome.denied w).app.showCamera = false) := by
  exact ⟨rfl, by decide, rfl, rfl, rfl, rfl, rfl, fun h => h⟩

/-- Witness for C6 at the initial state. -/
theorem startCamera_denied_instance :
    (startCamera CameraOutcome.denied initWorld).app.showCamera = false ∧
    (startCamera CameraOutcome.denied initWorld).app.error = some cameraErrMsg := by
  have h := startCamera_denied_spec initWorld
  exact ⟨h.2.2.2.2.2.2.2 rfl, by rw [h.1]⟩

/-- Claim C2: with a captured image present, a non-success HTTP response or
a rejected fetch makes `processImage` set the non-empty generic error and
leave `extractedData` at its prior value. -/
theorem processImage_failure_spec (w : World) (img : String)
    (h : w.app.capturedImage = some img) (o : FetchOutcome)
    (ho : (∃ b, o = FetchOutcome.resp false b) ∨ o = FetchOutcome.reject) :
    (processImage o w).app.error = some processImageFailMsg ∧
    processImageFailMsg ≠ "" ∧
    (processImage o w).app.extractedData = w.app.extractedData := by
  rcases ho with ⟨b, rfl⟩ | rfl <;>
    exact ⟨by simp [processImage, h], by decide, by simp [processImage, h]⟩

/-- Witness for C2: an HTTP 500-style failure with previously extracted
data present leaves that data in place and sets the generic error. -/
theorem processImage_failure_instance :
    (processImage (FetchOutcome.resp false (BodyOutcome.parsed none))
        ⟨⟨some "img", false, some ⟨["H"], []⟩, none, false, none⟩, 0, [], []⟩).app.error =
      some processImageFailMsg ∧
    (processImage (FetchOutcome.resp false (BodyOutcome.parsed none))
        ⟨⟨some "img", false, some ⟨["H"], []⟩, none, false, none⟩, 0, [], []⟩).app.extractedData =
      some ⟨["H"], []⟩ := by
  have h := processImage_failure_spec
    ⟨⟨some "img", false, some ⟨["H"], []⟩, none, false, none⟩, 0, [], []⟩ "img" rfl
    (FetchOutcome.resp false (BodyOutcome.parsed none)) (Or.inl ⟨_, rfl⟩)
  exact ⟨h.1, h.2.2⟩

/-- Claim C3: with a captured image present, a successful response whose
body parses as `{tableData: td}` makes `processImage` store exactly `td`
and clear the error, whatever the prior error was. -/
theorem processImage_success_spec (w : World) (img : String)
    (h : w.app.capturedImage = some img) (td : TableData) :
    (processImage (FetchOutcome.resp true (BodyOutcome.parsed (some td))) w).app.extractedData =
      some td ∧
    (processImage (FetchOutcome.resp true (BodyOutcome.parsed (some td))) w).app.error = none := by
  exact ⟨by simp [processImage, h], by simp [processImage, h]⟩

/-- Witness for C3: success clears a pre-existing error message. -/
theorem processImage_success_instance :
    (processImage (FetchOutcome.resp true (BodyOutcome.parsed (some ⟨["A", "B"], [["1", "2"]]⟩)))
        ⟨⟨some "img", false, none, some "old error", false, none⟩, 0, [], []⟩).app.extractedData =
      some ⟨["A", "B"], [["1", "2"]]⟩ ∧
    (processImage (FetchOutcome.resp true (BodyOutcome.parsed (some ⟨["A", "B"], [["1", "2"]]⟩)))
        ⟨⟨some "img", false, none, some "old error", false, none⟩, 0, [], []⟩).app.error = none := by
  exact processImage_success_spec
    ⟨⟨some "img", false, none, some "old error", false, none⟩, 0, [], []⟩ "img" rfl
    ⟨["A", "B"], [["1", "2"]]⟩

/-- Claim C7: a selected file with a non-`image/` MIME type is rejected
silently, with the whole state unchanged; a file with an `image/` MIME
type is decoded to a data URL and stored as the captured image, the same
field (and representation) camera capture writes; no file means no-op. -/
theorem handleFileUpload_spec (w : World) (f : UploadFile) :
    (startsWithJs f.mimeType "image/" = false → handleFileUpload (some f) w = w) ∧
    (startsWithJs f.mimeType "image/" = true →
      (handleFileUpload (some f) w).app = { w.app with capturedImage := some f.dataUrl } ∧
      (∀ w2 : World, w2.app.showCamera = true →
        (handleFileUpload (some f) w).app.capturedImage =
          (capturePhoto f.dataUrl w2).app.capturedImage)) ∧
    handleFileUpload none w = w := by
  obtain ⟨⟨ci, ip, ed, er, sc, sr⟩, nx, acq, ev⟩ := w
  refine ⟨fun h => ?_, fun h => ⟨?_, ?_⟩, rfl⟩
  · simp [handleFileUpload, h]
  · simp [handleFileUpload, h]
  · intro w2 h2
    obtain ⟨⟨ci2, ip2, ed2, er2, sc2, sr2⟩, nx2, acq2, ev2⟩ := w2
    have h2' : sc2 = true := h2
    subst h2'
    cases sr2 <;> simp [handleFileUpload, h, capturePhoto, stopCamera]

/-- Witness for C7: a text file is ignored, a PNG is stored. -/
theorem handleFileUpload_instance :
    handleFileUpload (some ⟨"text/plain", "d"⟩) initWorld = initWorld ∧
    (handleFileUpload (some ⟨"image/png", "dataurl"⟩) initWorld).app.capturedImage =
      some "dataurl" := by
  have h1 := (handleFileUpload_spec initWorld ⟨"text/plain", "d"⟩).1 (by decide)
  have h2 := ((handleFileUpload_spec initWorld ⟨"image/png", "dataurl"⟩).2.1 (by decide)).1
  exact ⟨h1, by rw [h2]⟩

/-- Counterexample to claim C8: the claim says a malformed extraction
response surfaces as an unhandled runtime error rather than through the
handled generic-error path.  In `processImage` the opposite happens: a
parsed body missing the `tableData` field is accepted silently (no error
at all, `extractedData` set to `undefined`), and a body that fails to
parse is caught by the `catch` block and reported with the same handled
generic message as an HTTP failure. -/
theorem processImage_malformed_cex :
    (processImage (FetchOutcome.resp true (BodyOutcome.parsed none))
        ⟨⟨some "img", false, none, none, false, none⟩, 0, [], []⟩).app.error = none ∧
    (processImage (FetchOutcome.resp true (BodyOutcome.parsed none))
        ⟨⟨some "img", false, none, none, false, none⟩, 0, [], []⟩).app.extractedData = none ∧
    (processImage (FetchOutcome.resp true BodyOutcome.parseError)
        ⟨⟨some "img", false, none, none, false, none⟩, 0, [], []⟩).app.error =
      some processImageFailMsg := by
  exact ⟨rfl, rfl, rfl⟩

/-- Claim C8 as amended: in `processImage` an unparsable response body is
caught and reported through the handled generic-error path with
`extractedData` untouched, and a parsed body missing `tableData` is
accepted silently (`extractedData` becomes `undefined`, no error); only in
the alternate path `processTableImage` does malformed model output
(a throwing field access or unparsable text) propagate as a thrown
runtime error. -/
theorem processImage_malformed_spec (w : World) (img : String)
    (h : w.app.capturedImage = some img) :
    ((processImage (FetchOutcome.resp true BodyOutcome.parseError) w).app.error =
        some processImageFailMsg ∧
      (processImage (FetchOutcome.resp true BodyOutcome.parseError) w).app.extractedData =
        w.app.extractedData) ∧
    ((processImage (FetchOutcome.resp true (BodyOutcome.parsed none)) w).app.error = none ∧
      (processImage (FetchOutcome.resp true (BodyOutcome.parsed none)) w).app.extractedData =
        none) ∧
    (∀ imgB p key g content, findKeyMatch key.data = some g →
      ∃ e, (processTableImage imgB p key (GeminiOutcome.text content none)).snd =
        Except.error e) ∧
    (∀ imgB p key g, findKeyMatch key.data = some g →
      ∃ e, (processTableImage imgB p key GeminiOutcome.malformedResult).snd =
        Except.error e) := by
  refine ⟨⟨by simp [processImage, h], by simp [processImage, h]⟩,
    ⟨by simp [processImage, h], by simp [processImage, h]⟩, ?_, ?_⟩
  · intro imgB p key g content hg
    unfold processTableImage
    rw [hg]
    exact ⟨_, rfl⟩
  · intro imgB p key g hg
    unfold processTableImage
    rw [hg]
    exact ⟨_, rfl⟩

/-- Witness for the amended C8. -/
theorem processImage_malformed_instance :
    (processImage (FetchOutcome.resp true (BodyOutcome.parsed none))
        ⟨⟨some "i2", false, some ⟨["Z"], []⟩, some "old", false, none⟩, 0, [], []⟩).app.error =
      none ∧
    ∃ e, (processTableImage "i" "p" "GEMINI_API_KEY=k"
        (GeminiOutcome.text "bad json" none)).snd = Except.error e := by
  have h := processImage_malformed_spec
    ⟨⟨some "i2", false, some ⟨["Z"], []⟩, some "old", false, none⟩, 0, [], []⟩ "i2" rfl
  exact ⟨h.2.1.1, h.2.2.1 "i" "p" "GEMINI_API_KEY=k" ['k'] "bad json" (by decide)⟩

/-- Claim C4 (refuting trace): the exactly-once release contract fails on
the program.  From the initial state a granted Take Photo click stores the
stream but leaves the camera view hidden, because `setShowCamera(true)` is
guarded by `videoRef.current` and the video element is unmounted while
`showCamera` is false; the Take Photo button therefore stays rendered, and
a second granted click overwrites `streamRef`.  Acquisition 0 is stopped
zero times - not exactly once - and stays at zero even after the reset
exit path runs (reset stops only the held acquisition 1). -/
theorem camera_stream_leak_cex :
    ((run [Act.start CameraOutcome.granted] initWorld).app.showCamera = false ∧
      (run [Act.start CameraOutcome.granted] initWorld).app.capturedImage = none ∧
      (run [Act.start CameraOutcome.granted] initWorld).app.streamRef = some 0) ∧
    ((run [Act.start CameraOutcome.granted, Act.start CameraOutcome.granted]
        initWorld).acquired = [0, 1] ∧
      (run [Act.start CameraOutcome.granted, Act.start CameraOutcome.granted]
        initWorld).app.streamRef = some 1 ∧
      countOcc 0 (run [Act.start CameraOutcome.granted, Act.start CameraOutcome.granted]
        initWorld).stopEvents = 0) ∧
    ((run [Act.start CameraOutcome.granted, Act.start CameraOutcome.granted,
        Act.upload (some ⟨"image/png", "d"⟩), Act.reset] initWorld).acquired = [0, 1] ∧
      (run [Act.start CameraOutcome.granted, Act.start CameraOutcome.granted,
        Act.upload (some ⟨"image/png", "d"⟩), Act.reset] initWorld).app.streamRef = none ∧
      countOcc 1 (run [Act.start CameraOutcome.granted, Act.start CameraOutcome.granted,
        Act.upload (some ⟨"image/png", "d"⟩), Act.reset] initWorld).stopEvents = 1 ∧
      countOcc 0 (run [Act.start CameraOutcome.granted, Act.start CameraOutcome.granted,
        Act.upload (some ⟨"image/png", "d"⟩), Act.reset] initWorld).stopEvents = 0) := by
  decide

theorem stripPre_append (p r : List Char) : stripPre p (p ++ r) = some r := by
  induction p with
  | nil => rfl
  | cons c cs ih => simp [stripPre, ih]

theorem takeWhile_all {p : Char → Bool} {l : List Char} (h : ∀ c ∈ l, p c = true) :
    l.takeWhile p = l := by
  induction l with
  | nil => rfl
  | cons c cs ih =>
      have hc := h c (List.mem_cons_self c cs)
      simp [List.takeWhile_cons, hc, ih (fun d hd => h d (List.mem_cons_of_mem c hd))]

theorem keyMatchAt_keyTag_append (g : List Char) (hne : g ≠ [])
    (hall : ∀ c ∈ g, isDotChar c = true) : keyMatchAt (keyTag ++ g) = some g := by
  unfold keyMatchAt
  rw [stripPre_append]
  simp [takeWhile_all hall, hne]

theorem findKeyMatch_keyTag_append (g : List Char) (hne : g ≠ [])
    (hall : ∀ c ∈ g, isDotChar c = true) : findKeyMatch (keyTag ++ g) = some g := by
  have hk : keyTag ++ g = 'G' :: ("EMINI_API_KEY=".data ++ g) := rfl
  rw [hk]
  simp only [findKeyMatch]
  rw [← hk, keyMatchAt_keyTag_append g hne hall]

/-- Claim C9: `processTableImage` extracts the API key as the text captured
by `/GEMINI_API_KEY=(.+)/`, trimmed; when the pattern has no match it fails
with the key-not-found error without calling the endpoint; when it matches,
the endpoint is called with the trimmed key and the inlined image and
prompt, and on success the parsed model output is returned wrapped as
`{ tableData }`.  The last conjunct characterises the match: a key file
`GEMINI_API_KEY=` followed by a nonempty run of non-line-terminator
characters captures exactly that run. -/
theorem processTableImage_spec :
    (∀ img p key o, findKeyMatch key.data = none →
      processTableImage img p key o =
        (none, Except.error "Gemini API key not found in .api_key file")) ∧
    (∀ img p key o g, findKeyMatch key.data = some g →
      (processTableImage img p key o).fst = some ⟨trimJs (String.mk g), img, p⟩) ∧
    (∀ img p key g content td, findKeyMatch key.data = some g →
      (processTableImage img p key (GeminiOutcome.text content (some td))).snd =
        Except.ok ⟨td⟩) ∧
    (∀ g : List Char, g ≠ [] → (∀ c ∈ g, isDotChar c = true) →
      findKeyMatch (keyTag ++ g) = some g) := by
  refine ⟨?_, ?_, ?_, findKeyMatch_keyTag_append⟩
  · intro img p key o hnone
    unfold processTableImage
    rw [hnone]
  · intro img p key o g hg
    unfold processTableImage
    rw [hg]
    cases o with
    | httpFail => rfl
    | malformedResult => rfl
    | text content parsed => cases parsed <;> rfl
  · intro img p key g content td hg
    unfold processTableImage
    rw [hg]

/-- Witness for C9: a file without the pattern fails without a call; a
matching file yields the trimmed key `secret` in the call; success returns
the wrapped table; the characterisation at the concrete capture `k`. -/
theorem processTableImage_instance :
    processTableImage "i" "p" "no key here" GeminiOutcome.httpFail =
      (none, Except.error "Gemini API key not found in .api_key file") ∧
    (processTableImage "i" "p" "GEMINI_API_KEY= secret "
        (GeminiOutcome.text "t" (some ⟨["A"], [["1"]]⟩))).fst = some ⟨"secret", "i", "p"⟩ ∧
    (processTableImage "i" "p" "GEMINI_API_KEY=k"
        (GeminiOutcome.text "{}" (some ⟨["A"], [["1"]]⟩))).snd = Except.ok ⟨⟨["A"], [["1"]]⟩⟩ ∧
    findKeyMatch (keyTag ++ ['k']) = some ['k'] := by
  refine ⟨processTableImage_spec.1 "i" "p" "no key here" _ (by decide), ?_,
    processTableImage_spec.2.2.1 "i" "p" "GEMINI_API_KEY=k" ['k'] "{}" ⟨["A"], [["1"]]⟩
      (by decide),
    processTableImage_spec.2.2.2 ['k'] (by decide) (by decide)⟩
  have h := processTableImage_spec.2.1 "i" "p" "GEMINI_API_KEY= secret "
    (GeminiOutcome.text "t" (some ⟨["A"], [["1"]]⟩)) " secret ".data (by decide)
  rw [h]
  decide
